import Mathlib

/-!
Shallow embedding of the monthly financial/hours projection engine of
`src/time_tracker/time_tracker.py`: the Calendar Oracle (`is_work_day`,
`get_work_days_in_month`), the Client Hour-Limit Calculator
(`calculate_client_hours`), the Monthly Stats Engine
(`calculate_monthly_stats`) and the Cumulative Projection Builder
(the day-by-day loop of `show_dashboard`, lines 306-340).

Modelling conventions:
- Python `datetime.date` values become the `Date` structure (proleptic
  Gregorian, year/month/day as naturals); pandas timestamp comparison on
  midnight timestamps is the lexicographic order `dateLE`.
- Python floats (hours, rates, amounts, targets) become `ℚ`.
- Pandas dataframes become lists of records; the pandas inner merge on
  `client_name` becomes `mergeHours` (row-major nested loop, exactly the
  multiset of matching pairs pandas produces).
- `datetime.now()` becomes an explicit `today : Date` parameter.
- The optional `contract_start_date` argument is `Option (Option Date)`:
  `none` is an absent/falsy value, `some none` a present value on which
  `pd.to_datetime` raises (the `except` branch), `some (some d)` a present
  value parsing to `d`.
- `settings['work_days'].split(',')` is taken as the list
  `Settings.work_days` directly.
-/

/-- A calendar date, as Python's `datetime.date`. -/
structure Date where
  year : Nat
  month : Nat
  day : Nat
deriving DecidableEq, Repr

/-- Leap-year test of the Gregorian calendar (`calendar.isleap`). -/
def isLeap (y : Nat) : Bool :=
  (y % 4 == 0 && y % 100 != 0) || y % 400 == 0

/-- Number of days of month `m` of year `y` (`calendar.monthrange(y, m)[1]`);
months outside 1..12 never reach this in the source. -/
def daysInMonth (y m : Nat) : Nat :=
  if m = 2 then (if isLeap y then 29 else 28)
  else if m = 4 || m = 6 || m = 9 || m = 11 then 30
  else 31

/-- Days in the months strictly before month `m` of a common year. -/
def daysBeforeMonth (y m : Nat) : Nat :=
  ([0, 31, 59, 90, 120, 151, 181, 212, 243, 273, 304, 334].getD (m - 1) 0)
    + (if 2 < m && isLeap y then 1 else 0)

/-- Rata-die number of a date: day 1 is 0001-01-01 of the proleptic
Gregorian calendar (a Monday). -/
def rataDie (d : Date) : Nat :=
  365 * (d.year - 1) + (d.year - 1) / 4 + (d.year - 1) / 400
    - (d.year - 1) / 100 + daysBeforeMonth d.year d.month + d.day

/-- Weekday of a date, 0 = Monday .. 6 = Sunday (Python `date.weekday()`). -/
def weekday (d : Date) : Nat :=
  (rataDie d + 6) % 7

/-- Weekday name of a date (`calendar.day_name[date.weekday()]`). -/
def dayName (d : Date) : String :=
  ["Monday", "Tuesday", "Wednesday", "Thursday", "Friday",
   "Saturday", "Sunday"].getD (weekday d) ""

/-- Lexicographic order on dates, as comparison of midnight timestamps. -/
def dateLE (a b : Date) : Bool :=
  if a.year = b.year then
    if a.month = b.month then decide (a.day ≤ b.day)
    else decide (a.month < b.month)
  else decide (a.year < b.year)

/-- A row of the clients table. -/
structure Client where
  client_name : String
  hourly_rate : ℚ
  billing_type : String
  active : Bool
  has_hour_limit : Bool
  limit_type : Option String
  hour_limit : ℚ
  contract_start_date : Option (Option Date)
deriving Repr

/-- A row of the time-entries table. -/
structure TimeEntry where
  date : Date
  client_name : String
  hours : ℚ
deriving Repr

/-- A row of the invoices table. -/
structure Invoice where
  date : Date
  client_name : String
  amount : ℚ
deriving Repr

/-- The settings singleton: monthly income target and weekly work days
(the source's comma-separated string, already split). -/
structure Settings where
  monthly_target : ℚ
  work_days : List String
deriving Repr

/-- Membership of a date in the inclusive window
`[firstDayOfMonth(y, m), lastDayOfMonth(y, m)]`. -/
def inMonth (y m : Nat) (d : Date) : Bool :=
  dateLE ⟨y, m, 1⟩ d && dateLE d ⟨y, m, daysInMonth y m⟩

/-- Embedding of `is_work_day(date, work_days_list, non_work_days_df)`
(source lines 174-182). -/
def is_work_day (date : Date) (work_days_list : List String)
    (non_work_days : List Date) : Bool :=
  if !(work_days_list.contains (dayName date)) then false
  else if non_work_days.contains date then false
  else true

/-- Embedding of `get_work_days_in_month(year, month, work_days,
non_work_days_df)` (source lines 184-194). -/
def get_work_days_in_month (year month : Nat) (work_days : List String)
    (non_work_days : List Date) : Nat :=
  ((List.range (daysInMonth year month)).filter
    (fun i => is_work_day ⟨year, month, i + 1⟩ work_days non_work_days)).length

/-- Sum of the `hours` column of a list of time entries. -/
def sumHours (es : List TimeEntry) : ℚ :=
  (es.map (fun e => e.hours)).sum

/-- Normalization of `limit_type` (source lines 133-135): NaN/None, the
literal string "None" and the empty string all become "Monthly". -/
def normalizeLimitType (lt : Option String) : String :=
  match lt with
  | none => "Monthly"
  | some s => if s == "None" || s == "" then "Monthly" else s

/-- Resolution of the optional year/month arguments (source lines 139-142
and 163-166): if either is absent, both are taken from today. -/
def resolveYM (today : Date) : Option Nat → Option Nat → Nat × Nat
  | some y, some m => (y, m)
  | some _, none => (today.year, today.month)
  | none, _ => (today.year, today.month)

/-- The Monthly branch of `calculate_client_hours` (source lines 137-147,
identically duplicated as the fallback at lines 162-171): sum of the
client's hours inside the resolved month window. -/
def monthlyHoursSum (client_entries : List TimeEntry) (today : Date)
    (year month : Option Nat) : ℚ :=
  sumHours (client_entries.filter
    (fun e => inMonth (resolveYM today year month).1
      (resolveYM today year month).2 e.date))

/-- Embedding of `calculate_client_hours(client_name, time_entries_df,
limit_type, contract_start_date, year, month)` (source lines 123-171). -/
def calculate_client_hours (client_name : String) (entries : List TimeEntry)
    (limit_type : Option String) (contract_start_date : Option (Option Date))
    (today : Date) (year month : Option Nat) : ℚ :=
  if entries.isEmpty then 0
  else
    let client_entries := entries.filter (fun e => e.client_name == client_name)
    if client_entries.isEmpty then 0
    else
      let lt := normalizeLimitType limit_type
      if lt == "Monthly" then monthlyHoursSum client_entries today year month
      else if lt == "Contract Total" then
        match contract_start_date with
        | some (some start_date) =>
            sumHours (client_entries.filter (fun e => dateLE start_date e.date))
        | some none => sumHours client_entries
        | none => sumHours client_entries
      else monthlyHoursSum client_entries today year month

/-- The clients with `billing_type == 'Hourly'`. -/
def hourlyClientsOf (clients : List Client) : List Client :=
  clients.filter (fun c => c.billing_type == "Hourly")

/-- Pandas inner merge of time entries with clients on `client_name`:
one row per matching (entry, client) pair, entry-major. -/
def mergeHours : List TimeEntry → List Client → List (TimeEntry × Client)
  | [], _ => []
  | e :: es, cs =>
      ((cs.filter (fun c => c.client_name == e.client_name)).map
        (fun c => (e, c))) ++ mergeHours es cs

/-- `(merged['hours'] * merged['hourly_rate']).sum()`. -/
def mergedIncome (ps : List (TimeEntry × Client)) : ℚ :=
  (ps.map (fun p => p.1.hours * p.2.hourly_rate)).sum

/-- `merged['hours'].sum()`. -/
def mergedHours (ps : List (TimeEntry × Client)) : ℚ :=
  (ps.map (fun p => p.1.hours)).sum

/-- Result record of `calculate_monthly_stats`. -/
structure Stats where
  total_income : ℚ
  hourly_income : ℚ
  retainer_income : ℚ
  monthly_target : ℚ
  target_so_far : ℚ
  daily_target : ℚ
  daily_hours_target : ℚ
  total_work_days : Nat
  days_worked : Nat
  total_hours : ℚ
  avg_hourly_rate : ℚ
deriving Repr

/-- Embedding of `calculate_monthly_stats(year, month, clients_df,
time_entries_df, invoices_df, settings, non_work_days_df)` (source lines
196-265), with `datetime.now().date()` as the explicit `today`.
Note the `days_worked` loop runs over `range(1, min(today.day + 1,
daysInMonth + 1))`: it is bounded by today's day-of-month. -/
def calculate_monthly_stats (year month : Nat) (clients : List Client)
    (entries : List TimeEntry) (invoices : List Invoice)
    (settings : Settings) (non_work_days : List Date) (today : Date) : Stats :=
  let monthly_entries := entries.filter (fun e => inMonth year month e.date)
  let monthly_invoices := invoices.filter (fun i => inMonth year month i.date)
  let merged := mergeHours monthly_entries (hourlyClientsOf clients)
  let hourly_total := mergedIncome merged
  let total_hours := mergedHours merged
  let retainer_total := (monthly_invoices.map (fun i => i.amount)).sum
  let total_income := hourly_total + retainer_total
  let total_work_days :=
    get_work_days_in_month year month settings.work_days non_work_days
  let days_worked :=
    ((List.range (min today.day (daysInMonth year month))).filter
      (fun i => is_work_day ⟨year, month, i + 1⟩ settings.work_days non_work_days
        && dateLE ⟨year, month, i + 1⟩ today)).length
  let daily_target :=
    if 0 < total_work_days then settings.monthly_target / total_work_days else 0
  let target_so_far := daily_target * days_worked
  let hcs := hourlyClientsOf clients
  let avg_hourly_rate :=
    if hcs.length = 0 then 0 else (hcs.map (fun c => c.hourly_rate)).sum / hcs.length
  let daily_hours_target :=
    if 0 < avg_hourly_rate then daily_target / avg_hourly_rate else 0
  { total_income := total_income
    hourly_income := hourly_total
    retainer_income := retainer_total
    monthly_target := settings.monthly_target
    target_so_far := target_so_far
    daily_target := daily_target
    daily_hours_target := daily_hours_target
    total_work_days := total_work_days
    days_worked := days_worked
    total_hours := total_hours
    avg_hourly_rate := avg_hourly_rate }

/-- Hourly income recognized on one single day (source lines 324-332):
entries of that exact date, inner-merged with Hourly clients. -/
def dailyHourlyIncome (d : Date) (clients : List Client)
    (entries : List TimeEntry) : ℚ :=
  mergedIncome (mergeHours (entries.filter (fun e => e.date == d))
    (hourlyClientsOf clients))

/-- Invoice amounts recognized on one single day (source lines 335-338). -/
def dailyInvoiceAmount (d : Date) (invoices : List Invoice) : ℚ :=
  ((invoices.filter (fun i => i.date == d)).map (fun i => i.amount)).sum

/-- The day-by-day projection loop of `show_dashboard` (source lines
314-340), over a given list of day numbers and with the running
cumulative target and actual as accumulators; returns the `targets`
and `actuals` series. -/
def projLoop (year month : Nat) (clients : List Client)
    (entries : List TimeEntry) (invoices : List Invoice)
    (daily_target : ℚ) (work_days : List String) (non_work_days : List Date) :
    List Nat → ℚ → ℚ → List ℚ × List ℚ
  | [], _, _ => ([], [])
  | day :: rest, ct, ca =>
      let ct2 := if is_work_day ⟨year, month, day⟩ work_days non_work_days
        then ct + daily_target else ct
      let ca2 := ca + dailyHourlyIncome ⟨year, month, day⟩ clients entries
        + dailyInvoiceAmount ⟨year, month, day⟩ invoices
      let r := projLoop year month clients entries invoices daily_target
        work_days non_work_days rest ct2 ca2
      (ct2 :: r.1, ca2 :: r.2)

/-- The day numbers 1 .. daysInMonth of a month. -/
def monthDayNumbers (year month : Nat) : List Nat :=
  (List.range (daysInMonth year month)).map (fun i => i + 1)

/-- Embedding of the Cumulative Projection Builder: the `targets` and
`actuals` series produced by `show_dashboard`'s loop over every calendar
day of the month, both starting from 0. -/
def buildProjection (year month : Nat) (clients : List Client)
    (entries : List TimeEntry) (invoices : List Invoice)
    (daily_target : ℚ) (work_days : List String) (non_work_days : List Date) :
    List ℚ × List ℚ :=
  projLoop year month clients entries invoices daily_target work_days
    non_work_days (monthDayNumbers year month) 0 0

/-- Weekday work-day set used in concrete examples. -/
def weekdaysMF : List String :=
  ["Monday", "Tuesday", "Wednesday", "Thursday", "Friday"]

/-! ### Helper lemmas -/

/-- Boolean characterization of `is_work_day`. -/
lemma is_work_day_eq (d : Date) (wd : List String) (nwd : List Date) :
    is_work_day d wd nwd = (wd.contains (dayName d) && !(nwd.contains d)) := by
  unfold is_work_day
  cases h1 : wd.contains (dayName d) <;> cases h2 : nwd.contains d <;> simp [h1, h2]

lemma length_filter_and_le {α : Type} (l : List α) (p q : α → Bool) :
    (l.filter (fun x => p x && q x)).length ≤ (l.filter p).length := by
  induction l with
  | nil => simp
  | cons a l ih =>
    cases hp : p a <;> cases hq : q a <;>
      simp [List.filter_cons, hp, hq] <;> omega

lemma length_filter_and_not {α : Type} (l : List α) (p q : α → Bool) :
    (l.filter (fun x => p x && !q x)).length
      = (l.filter p).length - (l.filter (fun x => p x && q x)).length := by
  induction l with
  | nil => simp
  | cons a l ih =>
    have hle := length_filter_and_le l p q
    cases hp : p a <;> cases hq : q a <;>
      simp [List.filter_cons, hp, hq, ih] <;> omega

lemma dateLE_iff (a b : Date) :
    dateLE a b = true ↔
      (a.year < b.year ∨ (a.year = b.year ∧ a.month < b.month) ∨
        (a.year = b.year ∧ a.month = b.month ∧ a.day ≤ b.day)) := by
  unfold dateLE
  split_ifs with h1 h2 <;> simp_all <;> omega

lemma inMonth_iff (y m : Nat) (d : Date) :
    inMonth y m d = true ↔
      (d.year = y ∧ d.month = m ∧ 1 ≤ d.day ∧ d.day ≤ daysInMonth y m) := by
  obtain ⟨dy, dm, dd⟩ := d
  simp only [inMonth, Bool.and_eq_true, dateLE_iff]
  omega

lemma dateLE_trans {a b c : Date} (h1 : dateLE a b = true) (h2 : dateLE b c = true) :
    dateLE a c = true := by
  rw [dateLE_iff] at h1 h2 ⊢
  omega

/-! ### C8: the Calendar Oracle -/

/-- C8: `is_work_day` returns false when the date's weekday name is not in
the work-day set, false when the exact date appears in the non-work-day
list, and true otherwise. -/
theorem is_work_day_spec (d : Date) (wd : List String) (nwd : List Date) :
    is_work_day d wd nwd = (wd.contains (dayName d) && !(nwd.contains d)) :=
  is_work_day_eq d wd nwd

/-! ### C5: counting work days in a month -/

/-- C5: `get_work_days_in_month` is at most the number of days of the
month, and equals the count of calendar days whose weekday name is in the
work-day set minus the count of those of them that also appear in the
non-work-day list. -/
theorem get_work_days_in_month_spec (y m : Nat) (wd : List String)
    (nwd : List Date) :
    get_work_days_in_month y m wd nwd ≤ daysInMonth y m ∧
    get_work_days_in_month y m wd nwd
      = ((List.range (daysInMonth y m)).filter
          (fun i => wd.contains (dayName ⟨y, m, i + 1⟩))).length
        - ((List.range (daysInMonth y m)).filter
          (fun i => wd.contains (dayName ⟨y, m, i + 1⟩)
            && nwd.contains (⟨y, m, i + 1⟩ : Date))).length := by
  constructor
  · calc ((List.range (daysInMonth y m)).filter
        (fun i => is_work_day ⟨y, m, i + 1⟩ wd nwd)).length
        ≤ (List.range (daysInMonth y m)).length := List.length_filter_le _ _
      _ = daysInMonth y m := List.length_range _
  · unfold get_work_days_in_month
    rw [List.filter_congr (fun i _ => is_work_day_eq ⟨y, m, i + 1⟩ wd nwd)]
    exact length_filter_and_not _ _ _

/-- Collapse of the two emptiness guards of `calculate_client_hours`:
the result only depends on the client's filtered entries and the
normalized limit type. -/
lemma cch_unfold (name : String) (entries : List TimeEntry)
    (lt : Option String) (csd : Option (Option Date)) (today : Date)
    (y m : Option Nat) :
    calculate_client_hours name entries lt csd today y m =
      (if normalizeLimitType lt == "Monthly" then
        monthlyHoursSum (entries.filter (fun e => e.client_name == name)) today y m
      else if normalizeLimitType lt == "Contract Total" then
        match csd with
        | some (some d) =>
            sumHours ((entries.filter (fun e => e.client_name == name)).filter
              (fun e => dateLE d e.date))
        | some none => sumHours (entries.filter (fun e => e.client_name == name))
        | none => sumHours (entries.filter (fun e => e.client_name == name))
      else
        monthlyHoursSum (entries.filter (fun e => e.client_name == name)) today y m) := by
  unfold calculate_client_hours
  by_cases h1 : entries.isEmpty
  · have he : entries = [] := by
      cases entries with
      | nil => rfl
      | cons a l => simp at h1
    subst he
    simp only [List.filter_nil, List.isEmpty_nil, if_true]
    split_ifs <;> (try rfl) <;>
      (cases csd with
       | none => simp [sumHours, monthlyHoursSum]
       | some o => cases o <;> simp [sumHours, monthlyHoursSum])
  · simp only [h1, if_false]
    by_cases h2 : (entries.filter (fun e => e.client_name == name)).isEmpty
    · have he : entries.filter (fun e => e.client_name == name) = [] := by
        cases hf : entries.filter (fun e => e.client_name == name) with
        | nil => rfl
        | cons a l => rw [hf] at h2; simp at h2
      simp only [h2, he, if_true]
      split_ifs <;> (try simp [sumHours, monthlyHoursSum]) <;>
        (cases csd with
         | none => simp [sumHours]
         | some o => cases o <;> simp [sumHours])
    · simp only [h1, h2, Bool.false_eq_true, if_false]

/-- The Monthly calculation with explicit year and month: the sum of the
client's hours inside the month window. -/
lemma cch_monthly_eq (name : String) (entries : List TimeEntry)
    (csd : Option (Option Date)) (today : Date) (y m : Nat) :
    calculate_client_hours name entries (some "Monthly") csd today (some y) (some m)
      = sumHours ((entries.filter (fun e => e.client_name == name)).filter
          (fun e => inMonth y m e.date)) := by
  rw [cch_unfold]
  simp [normalizeLimitType, monthlyHoursSum, resolveYM]

/-! ### C2: the Contract Total limit type -/

/-- C2: with limit type Contract Total, `calculate_client_hours` sums the
client's hours with date at or after the parsed contract start date (no
upper bound, no month restriction, independently of the year/month
arguments); on a parse failure (`some none`) and on an absent start date
(`none`) it sums all of the client's entries. Being a total function of
its inputs, it raises no error. -/
theorem cch_contract_total_spec (name : String) (entries : List TimeEntry)
    (d today : Date) (y m : Option Nat) :
    (calculate_client_hours name entries (some "Contract Total") (some (some d)) today y m
      = sumHours ((entries.filter (fun e => e.client_name == name)).filter
          (fun e => dateLE d e.date)))
    ∧ (calculate_client_hours name entries (some "Contract Total") (some none) today y m
      = sumHours (entries.filter (fun e => e.client_name == name)))
    ∧ (calculate_client_hours name entries (some "Contract Total") none today y m
      = sumHours (entries.filter (fun e => e.client_name == name))) := by
  refine ⟨?_, ?_, ?_⟩ <;> rw [cch_unfold] <;> simp [normalizeLimitType]

/-! ### C7: limit-type normalization and fallback -/

/-- C7: a missing, empty, or literal "None" limit type yields the same
result as "Monthly", and any limit type whose normalization is neither
"Monthly" nor "Contract Total" likewise yields the Monthly result. -/
theorem cch_default_monthly_spec (name : String) (entries : List TimeEntry)
    (csd : Option (Option Date)) (today : Date) (y m : Option Nat)
    (lt : Option String) :
    (calculate_client_hours name entries none csd today y m
      = calculate_client_hours name entries (some "Monthly") csd today y m)
    ∧ (calculate_client_hours name entries (some "") csd today y m
      = calculate_client_hours name entries (some "Monthly") csd today y m)
    ∧ (calculate_client_hours name entries (some "None") csd today y m
      = calculate_client_hours name entries (some "Monthly") csd today y m)
    ∧ (normalizeLimitType lt ≠ "Monthly" → normalizeLimitType lt ≠ "Contract Total" →
        calculate_client_hours name entries lt csd today y m
          = calculate_client_hours name entries (some "Monthly") csd today y m) := by
  refine ⟨?_, ?_, ?_, fun hM hC => ?_⟩ <;> rw [cch_unfold, cch_unfold]
  · simp [normalizeLimitType]
  · simp [normalizeLimitType]
  · simp [normalizeLimitType]
  · have h1 : (normalizeLimitType lt == "Monthly") = false := by
      simp [hM]
    have h2 : (normalizeLimitType lt == "Contract Total") = false := by
      simp [hC]
    have h3 : normalizeLimitType (some "Monthly") = "Monthly" := rfl
    simp [h1, h2, h3]

/-! ### C6: the Monthly limit type -/

/-- C6: with limit type Monthly and explicit year and month,
`calculate_client_hours` sums the client's hours inside the inclusive
month window, and the result is invariant under adding an entry dated
outside that window. -/
theorem cch_monthly_spec (name : String) (entries : List TimeEntry)
    (csd : Option (Option Date)) (today : Date) (y m : Nat) :
    (calculate_client_hours name entries (some "Monthly") csd today (some y) (some m)
      = sumHours ((entries.filter (fun e => e.client_name == name)).filter
          (fun e => inMonth y m e.date)))
    ∧ ∀ e : TimeEntry, inMonth y m e.date = false →
        calculate_client_hours name (e :: entries) (some "Monthly") csd today (some y) (some m)
          = calculate_client_hours name entries (some "Monthly") csd today (some y) (some m) := by
  refine ⟨cch_monthly_eq name entries csd today y m, fun e he => ?_⟩
  rw [cch_monthly_eq, cch_monthly_eq]
  by_cases hn : (e.client_name == name) = true
  · simp [List.filter_cons, hn, he]
  · simp [List.filter_cons, hn]

/-- Witness for C6 at a concrete input: an entry dated 2024-04-01 does not
change the Monthly hours of March 2024. -/
theorem cch_monthly_spec_witness :
    calculate_client_hours "Acme"
      (⟨⟨2024, 4, 1⟩, "Acme", 10⟩ :: [⟨⟨2024, 3, 1⟩, "Acme", 5⟩])
      (some "Monthly") none ⟨2024, 3, 15⟩ (some 2024) (some 3)
      = calculate_client_hours "Acme" [⟨⟨2024, 3, 1⟩, "Acme", 5⟩]
        (some "Monthly") none ⟨2024, 3, 15⟩ (some 2024) (some 3) :=
  (cch_monthly_spec "Acme" [⟨⟨2024, 3, 1⟩, "Acme", 5⟩] none
    ⟨2024, 3, 15⟩ 2024 3).2 ⟨⟨2024, 4, 1⟩, "Acme", 10⟩ (by decide)

/-- Witness for C7 at a concrete input: the unrecognized limit type
"Weekly" falls back to the Monthly calculation. -/
theorem cch_default_monthly_spec_witness :
    calculate_client_hours "Acme" [⟨⟨2024, 3, 1⟩, "Acme", 5⟩]
      (some "Weekly") none ⟨2024, 3, 15⟩ (some 2024) (some 3)
      = calculate_client_hours "Acme" [⟨⟨2024, 3, 1⟩, "Acme", 5⟩]
        (some "Monthly") none ⟨2024, 3, 15⟩ (some 2024) (some 3) :=
  (cch_default_monthly_spec "Acme" [⟨⟨2024, 3, 1⟩, "Acme", 5⟩] none
    ⟨2024, 3, 15⟩ (some 2024) (some 3) (some "Weekly")).2.2.2
    (by decide) (by decide)

/-! ### C9: guarded divisions of the Monthly Stats Engine -/

lemma stats_total_work_days_eq (y m : Nat) (cs : List Client)
    (es : List TimeEntry) (invs : List Invoice) (st : Settings)
    (nwd : List Date) (today : Date) :
    (calculate_monthly_stats y m cs es invs st nwd today).total_work_days
      = get_work_days_in_month y m st.work_days nwd := rfl

lemma stats_daily_target_eq (y m : Nat) (cs : List Client)
    (es : List TimeEntry) (invs : List Invoice) (st : Settings)
    (nwd : List Date) (today : Date) :
    (calculate_monthly_stats y m cs es invs st nwd today).daily_target
      = if 0 < (calculate_monthly_stats y m cs es invs st nwd today).total_work_days
        then st.monthly_target
          / ((calculate_monthly_stats y m cs es invs st nwd today).total_work_days : ℚ)
        else 0 := rfl

lemma stats_daily_hours_target_eq (y m : Nat) (cs : List Client)
    (es : List TimeEntry) (invs : List Invoice) (st : Settings)
    (nwd : List Date) (today : Date) :
    (calculate_monthly_stats y m cs es invs st nwd today).daily_hours_target
      = if 0 < (calculate_monthly_stats y m cs es invs st nwd today).avg_hourly_rate
        then (calculate_monthly_stats y m cs es invs st nwd today).daily_target
          / (calculate_monthly_stats y m cs es invs st nwd today).avg_hourly_rate
        else 0 := rfl

/-- C9: `calculate_monthly_stats` never divides by zero: `daily_target`
is `monthly_target / total_work_days` when `total_work_days > 0` and 0
when it is 0, and `daily_hours_target` is `daily_target /
avg_hourly_rate` when `avg_hourly_rate > 0` and 0 otherwise. -/
theorem stats_division_guards (y m : Nat) (cs : List Client)
    (es : List TimeEntry) (invs : List Invoice) (st : Settings)
    (nwd : List Date) (today : Date) :
    ((calculate_monthly_stats y m cs es invs st nwd today).total_work_days = 0 →
      (calculate_monthly_stats y m cs es invs st nwd today).daily_target = 0)
    ∧ (0 < (calculate_monthly_stats y m cs es invs st nwd today).total_work_days →
      (calculate_monthly_stats y m cs es invs st nwd today).daily_target
        = st.monthly_target
          / ((calculate_monthly_stats y m cs es invs st nwd today).total_work_days : ℚ))
    ∧ (0 < (calculate_monthly_stats y m cs es invs st nwd today).avg_hourly_rate →
      (calculate_monthly_stats y m cs es invs st nwd today).daily_hours_target
        = (calculate_monthly_stats y m cs es invs st nwd today).daily_target
          / (calculate_monthly_stats y m cs es invs st nwd today).avg_hourly_rate)
    ∧ (¬ 0 < (calculate_monthly_stats y m cs es invs st nwd today).avg_hourly_rate →
      (calculate_monthly_stats y m cs es invs st nwd today).daily_hours_target = 0) := by
  refine ⟨fun h => ?_, fun h => ?_, fun h => ?_, fun h => ?_⟩
  · rw [stats_daily_target_eq, h]; simp
  · rw [stats_daily_target_eq, if_pos h]
  · rw [stats_daily_hours_target_eq, if_pos h]
  · rw [stats_daily_hours_target_eq, if_neg h]

/-- Witness for C9 at a concrete input: with an empty work-day set the
work-day count is 0 and the daily target degrades to 0; with no clients
the average rate is 0 and the daily hours target degrades to 0. -/
theorem stats_division_guards_witness :
    (calculate_monthly_stats 2024 3 [] [] [] ⟨8000, []⟩ [] ⟨2024, 3, 15⟩).daily_target = 0
    ∧ (calculate_monthly_stats 2024 3 [] [] [] ⟨8000, []⟩ [] ⟨2024, 3, 15⟩).daily_hours_target = 0 :=
  ⟨(stats_division_guards 2024 3 [] [] [] ⟨8000, []⟩ [] ⟨2024, 3, 15⟩).1 (by decide),
   (stats_division_guards 2024 3 [] [] [] ⟨8000, []⟩ [] ⟨2024, 3, 15⟩).2.2.2 (by decide)⟩

/-! ### C1: the days-worked count -/

lemma stats_days_worked_eq (y m : Nat) (cs : List Client)
    (es : List TimeEntry) (invs : List Invoice) (st : Settings)
    (nwd : List Date) (today : Date) :
    (calculate_monthly_stats y m cs es invs st nwd today).days_worked
      = ((List.range (min today.day (daysInMonth y m))).filter
          (fun i => is_work_day ⟨y, m, i + 1⟩ st.work_days nwd
            && dateLE ⟨y, m, i + 1⟩ today)).length := rfl

/-- C1 counterexample: for February 2024 viewed on 2024-03-15 (a month
entirely in the past), the code's `days_worked` (11: the loop stops at
day 15, today's day-of-month) differs from the claimed count of work days
from the 1st through min(today, last day of month) = the whole month
(21). -/
theorem stats_days_worked_counterexample :
    ¬ ((calculate_monthly_stats 2024 2 [] [] [] ⟨8000, weekdaysMF⟩ [] ⟨2024, 3, 15⟩).days_worked
      = ((List.range (daysInMonth 2024 2)).filter
          (fun i => is_work_day ⟨2024, 2, i + 1⟩ weekdaysMF []
            && dateLE ⟨2024, 2, i + 1⟩ ⟨2024, 3, 15⟩)).length) := by
  decide

/-- C1 (amended): `days_worked` counts the work days among the first
`min(today.day, daysInMonth)` day numbers of the selected month whose
dates are ≤ today. Consequently it is 0 for a month starting after today,
and for the current month (today inside the selected month) it equals the
count of work days of the whole month that are ≤ today; but for a month
entirely in the past it scans only day numbers up to today's day-of-month
rather than the whole month. -/
theorem stats_days_worked_amended (y m : Nat) (cs : List Client)
    (es : List TimeEntry) (invs : List Invoice) (st : Settings)
    (nwd : List Date) (today : Date) :
    ((calculate_monthly_stats y m cs es invs st nwd today).days_worked
      = ((List.range (min today.day (daysInMonth y m))).filter
          (fun i => is_work_day ⟨y, m, i + 1⟩ st.work_days nwd
            && dateLE ⟨y, m, i + 1⟩ today)).length)
    ∧ (dateLE ⟨y, m, 1⟩ today = false →
        (calculate_monthly_stats y m cs es invs st nwd today).days_worked = 0)
    ∧ (today.year = y → today.month = m → today.day ≤ daysInMonth y m →
        (calculate_monthly_stats y m cs es invs st nwd today).days_worked
          = ((List.range (daysInMonth y m)).filter
              (fun i => is_work_day ⟨y, m, i + 1⟩ st.work_days nwd
                && dateLE ⟨y, m, i + 1⟩ today)).length) := by
  refine ⟨stats_days_worked_eq y m cs es invs st nwd today,
    fun hfut => ?_, fun hy hm hd => ?_⟩
  · rw [stats_days_worked_eq]
    have hnil : List.filter
        (fun i => is_work_day ⟨y, m, i + 1⟩ st.work_days nwd
          && dateLE ⟨y, m, i + 1⟩ today)
        (List.range (min today.day (daysInMonth y m))) = [] := by
      apply List.filter_eq_nil_iff.mpr
      intro i _ hcon
      rw [Bool.and_eq_true] at hcon
      have h1 : dateLE ⟨y, m, 1⟩ (⟨y, m, i + 1⟩ : Date) = true := by
        simp [dateLE]
      rw [dateLE_trans h1 hcon.2] at hfut
      simp at hfut
    rw [hnil]
    rfl
  · rw [stats_days_worked_eq, Nat.min_eq_left hd]
    have hsplit : daysInMonth y m = today.day + (daysInMonth y m - today.day) := by
      omega
    rw [hsplit, List.range_add, List.filter_append, List.length_append]
    have hnil : List.filter
        ((fun i => is_work_day ⟨y, m, i + 1⟩ st.work_days nwd
          && dateLE ⟨y, m, i + 1⟩ today) ∘ (today.day + ·))
        (List.range (daysInMonth y m - today.day)) = [] := by
      apply List.filter_eq_nil_iff.mpr
      intro j _ hcon
      simp only [Function.comp_apply, Bool.and_eq_true] at hcon
      have h2 := hcon.2
      rw [dateLE_iff] at h2
      simp only [] at h2
      omega
    rw [List.filter_map, List.length_map, hnil]
    rfl

/-- Witness for the amended C1 at a concrete input: for the current month
(March 2024 viewed on 2024-03-15) `days_worked` equals the spec's count
over the whole month of work days that are ≤ today. -/
theorem stats_days_worked_amended_witness :
    (calculate_monthly_stats 2024 3 [] [] [] ⟨8000, weekdaysMF⟩ [] ⟨2024, 3, 15⟩).days_worked
      = ((List.range (daysInMonth 2024 3)).filter
          (fun i => is_work_day ⟨2024, 3, i + 1⟩ weekdaysMF []
            && dateLE ⟨2024, 3, i + 1⟩ ⟨2024, 3, 15⟩)).length :=
  (stats_days_worked_amended 2024 3 [] [] [] ⟨8000, weekdaysMF⟩ []
    ⟨2024, 3, 15⟩).2.2 rfl rfl (by decide)

lemma beq_str_comm (a b : String) : (a == b) = (b == a) := by
  by_cases h : a = b
  · subst h; rfl
  · rw [beq_eq_false_iff_ne.mpr h, beq_eq_false_iff_ne.mpr (Ne.symm h)]

lemma mergedHours_append (l1 l2 : List (TimeEntry × Client)) :
    mergedHours (l1 ++ l2) = mergedHours l1 + mergedHours l2 := by
  simp [mergedHours]

lemma mergedIncome_append (l1 l2 : List (TimeEntry × Client)) :
    mergedIncome (l1 ++ l2) = mergedIncome l1 + mergedIncome l2 := by
  simp [mergedIncome]

lemma mergedHours_replicate (es : List TimeEntry) (c : Client) (k : Nat) :
    mergedHours (mergeHours es (List.replicate k c))
      = k * sumHours (es.filter (fun e => e.client_name == c.client_name)) := by
  induction es with
  | nil => simp [mergeHours, mergedHours, sumHours]
  | cons e es ih =>
    show mergedHours
        (((List.replicate k c).filter (fun c' => c'.client_name == e.client_name)).map
          (fun c' => (e, c')) ++ mergeHours es (List.replicate k c)) = _
    rw [mergedHours_append, ih]
    by_cases hn : (c.client_name == e.client_name) = true
    · rw [List.filter_replicate, if_pos hn, List.map_replicate]
      have hrep : mergedHours (List.replicate k (e, c)) = k * e.hours := by
        simp [mergedHours, List.map_replicate, List.sum_replicate, nsmul_eq_mul]
      rw [hrep, List.filter_cons, beq_str_comm e.client_name c.client_name, hn]
      simp [sumHours]
      ring
    · rw [List.filter_replicate, if_neg hn, List.map_nil]
      have h0 : mergedHours ([] : List (TimeEntry × Client)) = 0 := rfl
      rw [h0, List.filter_cons, beq_str_comm e.client_name c.client_name]
      rw [Bool.not_eq_true] at hn
      rw [hn]
      simp

lemma mergedIncome_replicate (es : List TimeEntry) (c : Client) (k : Nat) :
    mergedIncome (mergeHours es (List.replicate k c))
      = k * (c.hourly_rate
          * sumHours (es.filter (fun e => e.client_name == c.client_name))) := by
  induction es with
  | nil => simp [mergeHours, mergedIncome, sumHours]
  | cons e es ih =>
    show mergedIncome
        (((List.replicate k c).filter (fun c' => c'.client_name == e.client_name)).map
          (fun c' => (e, c')) ++ mergeHours es (List.replicate k c)) = _
    rw [mergedIncome_append, ih]
    by_cases hn : (c.client_name == e.client_name) = true
    · rw [List.filter_replicate, if_pos hn, List.map_replicate]
      have hrep : mergedIncome (List.replicate k (e, c)) = k * (e.hours * c.hourly_rate) := by
        simp [mergedIncome, List.map_replicate, List.sum_replicate, nsmul_eq_mul]
      rw [hrep, List.filter_cons, beq_str_comm e.client_name c.client_name, hn]
      simp [sumHours]
      ring
    · rw [List.filter_replicate, if_neg hn, List.map_nil]
      have h0 : mergedIncome ([] : List (TimeEntry × Client)) = 0 := rfl
      rw [h0, List.filter_cons, beq_str_comm e.client_name c.client_name]
      rw [Bool.not_eq_true] at hn
      rw [hn]
      simp

lemma stats_total_hours_eq (y m : Nat) (cs : List Client)
    (es : List TimeEntry) (invs : List Invoice) (st : Settings)
    (nwd : List Date) (today : Date) :
    (calculate_monthly_stats y m cs es invs st nwd today).total_hours
      = mergedHours (mergeHours (es.filter (fun e => inMonth y m e.date))
          (hourlyClientsOf cs)) := rfl

lemma stats_hourly_income_eq (y m : Nat) (cs : List Client)
    (es : List TimeEntry) (invs : List Invoice) (st : Settings)
    (nwd : List Date) (today : Date) :
    (calculate_monthly_stats y m cs es invs st nwd today).hourly_income
      = mergedIncome (mergeHours (es.filter (fun e => inMonth y m e.date))
          (hourlyClientsOf cs)) := rfl

/-! ### C10: duplicate client rows multiply contributions -/

/-- C10: when the roster is k copies of one Hourly client record, each of
that client's in-month entries contributes k times through the inner
merge: `total_hours` is k times the client's in-month hours and
`hourly_income` is k times rate times those hours, so name uniqueness is
load-bearing for counting each entry once. -/
theorem stats_duplicate_clients (k : Nat) (c : Client) (y m : Nat)
    (es : List TimeEntry) (invs : List Invoice) (st : Settings)
    (nwd : List Date) (today : Date) (hc : c.billing_type = "Hourly") :
    ((calculate_monthly_stats y m (List.replicate k c) es invs st nwd today).total_hours
      = k * sumHours ((es.filter (fun e => inMonth y m e.date)).filter
          (fun e => e.client_name == c.client_name)))
    ∧ ((calculate_monthly_stats y m (List.replicate k c) es invs st nwd today).hourly_income
      = k * (c.hourly_rate
          * sumHours ((es.filter (fun e => inMonth y m e.date)).filter
              (fun e => e.client_name == c.client_name)))) := by
  have hh : hourlyClientsOf (List.replicate k c) = List.replicate k c := by
    unfold hourlyClientsOf
    rw [List.filter_replicate, if_pos (by simp [hc] : (c.billing_type == "Hourly") = true)]
  exact ⟨by rw [stats_total_hours_eq, hh, mergedHours_replicate],
    by rw [stats_hourly_income_eq, hh, mergedIncome_replicate]⟩

/-- Witness for C10 at a concrete input: two copies of client "Acme"
double the counted hours of a March 2024 entry. -/
theorem stats_duplicate_clients_witness :
    (calculate_monthly_stats 2024 3
        (List.replicate 2 ⟨"Acme", 100, "Hourly", true, false, none, 0, none⟩)
        [⟨⟨2024, 3, 1⟩, "Acme", 5⟩] [] ⟨8000, weekdaysMF⟩ [] ⟨2024, 3, 15⟩).total_hours
      = 2 * sumHours (([⟨⟨2024, 3, 1⟩, "Acme", 5⟩].filter
          (fun e => inMonth 2024 3 e.date)).filter
            (fun e => e.client_name == "Acme")) :=
  (stats_duplicate_clients 2 ⟨"Acme", 100, "Hourly", true, false, none, 0, none⟩
    2024 3 [⟨⟨2024, 3, 1⟩, "Acme", 5⟩] [] ⟨8000, weekdaysMF⟩ [] ⟨2024, 3, 15⟩ rfl).1

/-! ### C4: the cumulative target series -/

lemma projLoop_fst_head_ge (y m : Nat) (cs : List Client) (es : List TimeEntry)
    (invs : List Invoice) (dt : ℚ) (wd : List String) (nwd : List Date)
    (hdt : 0 ≤ dt) :
    ∀ (days : List Nat) (ct ca x : ℚ),
      ((projLoop y m cs es invs dt wd nwd days ct ca).1).head? = some x → ct ≤ x := by
  intro days ct ca x h
  cases days with
  | nil => simp [projLoop] at h
  | cons d rest =>
    simp only [projLoop, List.head?_cons, Option.some.injEq] at h
    rw [← h]
    split_ifs <;> linarith

lemma projLoop_fst_chain (y m : Nat) (cs : List Client) (es : List TimeEntry)
    (invs : List Invoice) (dt : ℚ) (wd : List String) (nwd : List Date)
    (hdt : 0 ≤ dt) :
    ∀ (days : List Nat) (ct ca : ℚ),
      List.Chain' (· ≤ ·) ((projLoop y m cs es invs dt wd nwd days ct ca).1) := by
  intro days
  induction days with
  | nil => intro ct ca; simp [projLoop]
  | cons d rest ih =>
    intro ct ca
    simp only [projLoop]
    rw [List.chain'_cons']
    refine ⟨fun x hx => ?_, ih _ _⟩
    exact projLoop_fst_head_ge y m cs es invs dt wd nwd hdt rest _ _ x
      (Option.mem_def.mp hx)

lemma projLoop_fst_last (y m : Nat) (cs : List Client) (es : List TimeEntry)
    (invs : List Invoice) (dt : ℚ) (wd : List String) (nwd : List Date) :
    ∀ (days : List Nat) (ct ca : ℚ),
      ((projLoop y m cs es invs dt wd nwd days ct ca).1).getLastD ct
        = ct + dt * ((days.filter (fun d => is_work_day ⟨y, m, d⟩ wd nwd)).length : ℚ) := by
  intro days
  induction days with
  | nil => intro ct ca; simp [projLoop]
  | cons d rest ih =>
    intro ct ca
    simp only [projLoop]
    rw [List.getLastD_cons, ih]
    by_cases hw : is_work_day ⟨y, m, d⟩ wd nwd = true
    · rw [if_pos hw, List.filter_cons, if_pos hw, List.length_cons]
      push_cast
      ring
    · rw [if_neg hw, List.filter_cons, if_neg hw]

lemma monthDayNumbers_work_count (y m : Nat) (wd : List String) (nwd : List Date) :
    (((monthDayNumbers y m).filter
      (fun d => is_work_day ⟨y, m, d⟩ wd nwd)).length : Nat)
      = get_work_days_in_month y m wd nwd := by
  rw [monthDayNumbers, List.filter_map, List.length_map]
  rfl

/-- C4: the projection's cumulativeTarget series is non-decreasing (it
adds the daily target exactly on work days and carries forward
otherwise), and its final value is `total_work_days * daily_target` as
computed by `calculate_monthly_stats` on the same inputs; the monthly
target is non-negative in any valid configuration. -/
theorem projection_target_spec (y m : Nat) (cs : List Client)
    (es : List TimeEntry) (invs : List Invoice) (st : Settings)
    (nwd : List Date) (today : Date) (h : 0 ≤ st.monthly_target) :
    List.Chain' (· ≤ ·)
      (buildProjection y m cs es invs
        (calculate_monthly_stats y m cs es invs st nwd today).daily_target
        st.work_days nwd).1
    ∧ (buildProjection y m cs es invs
        (calculate_monthly_stats y m cs es invs st nwd today).daily_target
        st.work_days nwd).1.getLastD 0
      = ((calculate_monthly_stats y m cs es invs st nwd today).total_work_days : ℚ)
        * (calculate_monthly_stats y m cs es invs st nwd today).daily_target := by
  have hdt : 0 ≤ (calculate_monthly_stats y m cs es invs st nwd today).daily_target := by
    rw [stats_daily_target_eq]
    split_ifs with h1
    · exact div_nonneg h (Nat.cast_nonneg _)
    · exact le_refl 0
  constructor
  · exact projLoop_fst_chain y m cs es invs _ st.work_days nwd hdt
      (monthDayNumbers y m) 0 0
  · rw [buildProjection, projLoop_fst_last, monthDayNumbers_work_count,
      stats_total_work_days_eq]
    ring

/-- Witness for C4 at a concrete input: March 2024, default settings,
empty data. -/
theorem projection_target_spec_witness :
    List.Chain' (· ≤ ·)
      (buildProjection 2024 3 [] [] []
        (calculate_monthly_stats 2024 3 [] [] [] ⟨8000, weekdaysMF⟩ [] ⟨2024, 3, 15⟩).daily_target
        weekdaysMF []).1
    ∧ (buildProjection 2024 3 [] [] []
        (calculate_monthly_stats 2024 3 [] [] [] ⟨8000, weekdaysMF⟩ [] ⟨2024, 3, 15⟩).daily_target
        weekdaysMF []).1.getLastD 0
      = ((calculate_monthly_stats 2024 3 [] [] [] ⟨8000, weekdaysMF⟩ [] ⟨2024, 3, 15⟩).total_work_days : ℚ)
        * (calculate_monthly_stats 2024 3 [] [] [] ⟨8000, weekdaysMF⟩ [] ⟨2024, 3, 15⟩).daily_target :=
  projection_target_spec 2024 3 [] [] [] ⟨8000, weekdaysMF⟩ [] ⟨2024, 3, 15⟩
    (by norm_num)

/-! ### C3: the cumulative actual series refines total_income -/

lemma sum_map_add {α : Type} (l : List α) (f g : α → ℚ) :
    (l.map (fun x => f x + g x)).sum = (l.map f).sum + (l.map g).sum := by
  induction l with
  | nil => simp
  | cons a l ih =>
    simp only [List.map_cons, List.sum_cons, ih]
    ring

lemma mergedIncome_merge (es : List TimeEntry) (cs : List Client) :
    mergedIncome (mergeHours es cs)
      = (es.map (fun e => ((cs.filter (fun c => c.client_name == e.client_name)).map
          (fun c => e.hours * c.hourly_rate)).sum)).sum := by
  induction es with
  | nil => rfl
  | cons e es ih =>
    show mergedIncome
        (((cs.filter (fun c => c.client_name == e.client_name)).map
          (fun c => (e, c))) ++ mergeHours es cs) = _
    rw [mergedIncome_append, ih, List.map_cons, List.sum_cons]
    congr 1
    unfold mergedIncome
    rw [List.map_map]
    exact congrArg List.sum (List.map_congr_left (fun c _ => rfl))

lemma sum_filter_date_cons {α : Type} (k : α → Date) (v : α → ℚ) (L : List α)
    (d : Date) (ds : List Date) (hd : d ∉ ds) :
    ((L.filter (fun x => (d :: ds).contains (k x))).map v).sum
      = ((L.filter (fun x => k x == d)).map v).sum
        + ((L.filter (fun x => ds.contains (k x))).map v).sum := by
  induction L with
  | nil => simp
  | cons a L ih =>
    have hcons : ((d :: ds).contains (k a)) = ((k a == d) || ds.contains (k a)) :=
      List.contains_cons
    by_cases h1 : k a = d
    · have hb : (k a == d) = true := beq_iff_eq.mpr h1
      have h2 : (ds.contains (k a)) = false := by
        rw [← Bool.not_eq_true]
        intro hmem
        exact hd (h1 ▸ List.elem_iff.mp hmem)
      simp only [List.filter_cons, hcons, hb, h2, Bool.true_or, if_true,
        Bool.false_eq_true, if_false, List.map_cons, List.sum_cons, ih]
      ring
    · have hb : (k a == d) = false := beq_eq_false_iff_ne.mpr h1
      by_cases hq : (ds.contains (k a)) = true
      · simp only [List.filter_cons, hcons, hb, hq, Bool.false_or, if_true,
          Bool.false_eq_true, if_false, List.map_cons, List.sum_cons, ih]
        ring
      · rw [Bool.not_eq_true] at hq
        simp only [List.filter_cons, hcons, hb, hq, Bool.false_or,
          Bool.false_eq_true, if_false, ih]

lemma sum_over_days {α : Type} (k : α → Date) (v : α → ℚ) (L : List α) :
    ∀ ds : List Date, ds.Nodup →
      (ds.map (fun d => ((L.filter (fun x => k x == d)).map v).sum)).sum
        = ((L.filter (fun x => ds.contains (k x))).map v).sum := by
  intro ds
  induction ds with
  | nil => intro _; simp
  | cons d ds ih =>
    intro hnd
    obtain ⟨hd, hnd2⟩ := List.nodup_cons.mp hnd
    rw [List.map_cons, List.sum_cons, ih hnd2, sum_filter_date_cons k v L d ds hd]

lemma contains_monthDates (y m : Nat) (d : Date) :
    (((monthDayNumbers y m).map (fun n => (⟨y, m, n⟩ : Date))).contains d)
      = inMonth y m d := by
  rw [Bool.eq_iff_iff]
  constructor
  · intro hc
    have hm := List.elem_iff.mp hc
    rw [List.mem_map] at hm
    obtain ⟨n, hn, rfl⟩ := hm
    rw [monthDayNumbers, List.mem_map] at hn
    obtain ⟨i, hi, rfl⟩ := hn
    rw [List.mem_range] at hi
    rw [inMonth_iff]
    refine ⟨rfl, rfl, ?_, ?_⟩
    · show 1 ≤ i + 1
      omega
    · show i + 1 ≤ daysInMonth y m
      omega
  · intro hIM
    rw [inMonth_iff] at hIM
    obtain ⟨h1, h2, h3, h4⟩ := hIM
    apply List.elem_iff.mpr
    rw [List.mem_map]
    refine ⟨d.day, ?_, ?_⟩
    · rw [monthDayNumbers, List.mem_map]
      refine ⟨d.day - 1, ?_, by omega⟩
      rw [List.mem_range]
      omega
    · cases d
      simp_all

lemma monthDates_nodup (y m : Nat) :
    (((monthDayNumbers y m)).map (fun n => (⟨y, m, n⟩ : Date))).Nodup := by
  apply List.Nodup.map
  · intro a b hab
    exact congrArg Date.day hab
  · rw [monthDayNumbers]
    exact (List.nodup_range _).map (fun a b h => by omega)

lemma projLoop_snd_last (y m : Nat) (cs : List Client) (es : List TimeEntry)
    (invs : List Invoice) (dt : ℚ) (wd : List String) (nwd : List Date) :
    ∀ (days : List Nat) (ct ca : ℚ),
      ((projLoop y m cs es invs dt wd nwd days ct ca).2).getLastD ca
        = ca + (days.map (fun d => dailyHourlyIncome ⟨y, m, d⟩ cs es
            + dailyInvoiceAmount ⟨y, m, d⟩ invs)).sum := by
  intro days
  induction days with
  | nil => intro ct ca; simp [projLoop]
  | cons d rest ih =>
    intro ct ca
    simp only [projLoop]
    rw [List.getLastD_cons, ih, List.map_cons, List.sum_cons]
    ring

lemma stats_total_income_eq (y m : Nat) (cs : List Client)
    (es : List TimeEntry) (invs : List Invoice) (st : Settings)
    (nwd : List Date) (today : Date) :
    (calculate_monthly_stats y m cs es invs st nwd today).total_income
      = mergedIncome (mergeHours (es.filter (fun e => inMonth y m e.date))
          (hourlyClientsOf cs))
        + ((invs.filter (fun i => inMonth y m i.date)).map (fun i => i.amount)).sum := rfl

/-- C3: the final element of the projection's cumulativeActual series
(the day-by-day join of each day's entries with Hourly clients plus each
day's invoice amounts) equals `calculate_monthly_stats`'s `total_income`
on the same inputs for the same month. -/
theorem projection_actual_spec (y m : Nat) (cs : List Client)
    (es : List TimeEntry) (invs : List Invoice) (st : Settings)
    (nwd : List Date) (today : Date) :
    (buildProjection y m cs es invs
      (calculate_monthly_stats y m cs es invs st nwd today).daily_target
      st.work_days nwd).2.getLastD 0
      = (calculate_monthly_stats y m cs es invs st nwd today).total_income := by
  rw [buildProjection, projLoop_snd_last, sum_map_add, zero_add,
    stats_total_income_eq]
  congr 1
  · have hmapmap : (monthDayNumbers y m).map (fun d => dailyHourlyIncome ⟨y, m, d⟩ cs es)
        = ((monthDayNumbers y m).map (fun n => (⟨y, m, n⟩ : Date))).map
            (fun dd => dailyHourlyIncome dd cs es) := by
      rw [List.map_map]
      rfl
    rw [hmapmap]
    have hform : ∀ dd ∈ (monthDayNumbers y m).map (fun n => (⟨y, m, n⟩ : Date)),
        dailyHourlyIncome dd cs es
          = ((es.filter (fun e => e.date == dd)).map
              (fun e => (((hourlyClientsOf cs).filter
                (fun c => c.client_name == e.client_name)).map
                  (fun c => e.hours * c.hourly_rate)).sum)).sum := by
      intro dd _
      rw [dailyHourlyIncome, mergedIncome_merge]
    rw [List.map_congr_left hform]
    rw [sum_over_days (fun e => e.date)
      (fun e => (((hourlyClientsOf cs).filter
        (fun c => c.client_name == e.client_name)).map
          (fun c => e.hours * c.hourly_rate)).sum)
      es ((monthDayNumbers y m).map (fun n => (⟨y, m, n⟩ : Date)))
      (monthDates_nodup y m)]
    rw [List.filter_congr (fun x _ => contains_monthDates y m x.date)]
    rw [← mergedIncome_merge]
  · have hmapmap : (monthDayNumbers y m).map (fun d => dailyInvoiceAmount ⟨y, m, d⟩ invs)
        = ((monthDayNumbers y m).map (fun n => (⟨y, m, n⟩ : Date))).map
            (fun dd => dailyInvoiceAmount dd invs) := by
      rw [List.map_map]
      rfl
    rw [hmapmap]
    have hform : ∀ dd ∈ (monthDayNumbers y m).map (fun n => (⟨y, m, n⟩ : Date)),
        dailyInvoiceAmount dd invs
          = ((invs.filter (fun i => i.date == dd)).map (fun i => i.amount)).sum := by
      intro dd _
      rfl
    rw [List.map_congr_left hform]
    rw [sum_over_days (fun i => i.date) (fun i => i.amount) invs
      ((monthDayNumbers y m).map (fun n => (⟨y, m, n⟩ : Date)))
      (monthDates_nodup y m)]
    rw [List.filter_congr (fun x _ => contains_monthDates y m x.date)]
